import Mathlib

/-!
Shallow embedding of the location CRUD service in `api/index.py`.

The store is modelled as a list of persisted rows plus the auto-increment
counter of the `id` primary key.  Each HTTP handler becomes a pure function
from its parameters and the store to a result (`Except Err _`) together with
the store after the request; handler paths that raise an HTTPException
before any write, or that roll the session back, return the input store.

Modelling boundary: the web framework's routing and the serialization of a
row into the external JSON schema are external collaborators and are not
modelled; handlers return the persisted row itself.  Fixture values are
modelled as strings (the falsy string is `""`), and SQL `ILIKE` is modelled
as case-insensitive `LIKE` with the `%`/`_` wildcards and no escape
processing.
-/

/-- A persisted row of the `locations` table.  The ORM attribute for the
last column is named `layout` and is stored under the column name
`layout_info` (line 61 of `api/index.py`). -/
structure Location where
  id : Int
  name : String
  loca : String
  img : String
  desc : String
  facilities : Option String := none
  layout : Option String := none
deriving DecidableEq, Repr

deriving instance DecidableEq for Except

/-- Database state: the rows of the `locations` table in insertion order,
and the next value of the auto-increment `id` counter. -/
structure Store where
  recs : List Location
  nextId : Int
deriving DecidableEq, Repr

/-- Error outcomes of the handlers, named after the spec's taxonomy. -/
inductive Err where
  | forbidden
  | conflict
  | invalidInput
  | notFound
  | validation
  | fixtureMissing
  | dataFormat
deriving DecidableEq, Repr

/-- The HTTP status code each error is surfaced with in `api/index.py`. -/
def Err.statusCode : Err → Nat
  | .forbidden => 403
  | .conflict => 400
  | .invalidInput => 400
  | .notFound => 404
  | .validation => 422
  | .fixtureMissing => 500
  | .dataFormat => 500

/-- One raw object of the `locations` array of the fixture file `db.json`,
with every JSON key the seeding `field_mapping` knows about.  A key that is
absent from the object is `none`; values are modelled as strings. -/
structure FixtureRec where
  id : Option String := none
  name : Option String := none
  locations : Option String := none
  loca : Option String := none
  img : Option String := none
  desc : Option String := none
  facilities : Option String := none
  Layout : Option String := none
  layout_info : Option String := none
deriving DecidableEq, Repr

/-- The column values of a row about to be inserted by seeding (the `id`
is assigned by the store, the `field_mapping` loop skips a fixture `id`). -/
structure LocationData where
  name : String
  loca : String
  img : String
  desc : String
  facilities : Option String
  layout : Option String
deriving DecidableEq, Repr

/-- The required-field check of the seeding loop: the mapped value must be
present and not falsy (for a string value, falsy means `""`). -/
def checkReq : Option String → Option String
  | some s => if s = "" then none else some s
  | none => none

/-- Per-record processing of the seeding loop (lines 370-408 of
`api/index.py`): apply `field_mapping` (`locations` then `loca` feed the
`loca` column, the later key winning; `Layout` then `layout_info` feed the
`layout` attribute), then validate the four required fields in order; any
failure raises inside the per-record `try`, so the record is skipped. -/
def processRecord (rec : FixtureRec) : Option LocationData :=
  (checkReq rec.name).bind fun n =>
  (checkReq (rec.loca <|> rec.locations)).bind fun l =>
  (checkReq rec.img).bind fun i =>
  (checkReq rec.desc).map fun d =>
  { name := n, loca := l, img := i, desc := d,
    facilities := rec.facilities, layout := rec.layout_info <|> rec.Layout }

/-- Assign consecutive auto-increment ids to the successfully processed
records, in insertion order. -/
def assignIds (start : Int) : List LocationData → List Location
  | [] => []
  | d :: ds =>
    { id := start, name := d.name, loca := d.loca, img := d.img, desc := d.desc,
      facilities := d.facilities, layout := d.layout } :: assignIds (start + 1) ds

/-- Successful seeding response payload: `inserted_count` and `total_data`. -/
structure SeedOk where
  inserted : Nat
  total : Nat
deriving DecidableEq, Repr

/-- Successful reset response payload: `deleted_count`. -/
structure ResetOk where
  deleted : Nat
deriving DecidableEq, Repr

/-- The `POST /api/seed` handler (lines 310-429 of `api/index.py`).

`fixture` is the `locations` array loaded from `db.json`; the handler's
`if not locations_data` check treats a missing file and an empty array the
same way, so both are the empty list here.

The emptiness guard is wrapped in `try ... except Exception`: the Conflict
HTTPException raised on a non-empty table (line 328) is caught by that
blanket `except` (line 332), which drops and recreates the tables — wiping
every row and resetting the id sequence — and lets seeding proceed. -/
def seed_database (secret cfg : String) (fixture : List FixtureRec) (s : Store) :
    Except Err SeedOk × Store :=
  if secret = cfg then
    let s1 : Store := if s.recs.isEmpty then s else { recs := [], nextId := 1 }
    if fixture.isEmpty then (.error .fixtureMissing, s1)
    else
      let out := fixture.filterMap processRecord
      if out.isEmpty then (.error .dataFormat, s1)
      else
        (.ok { inserted := out.length, total := fixture.length },
         { recs := s1.recs ++ assignIds s1.nextId out, nextId := s1.nextId + out.length })
  else (.error .forbidden, s)

/-- The `DELETE /api/reset` handler (lines 431-452 of `api/index.py`). -/
def reset_database (secret cfg : String) (s : Store) : Except Err ResetOk × Store :=
  if secret = cfg then
    (.ok { deleted := s.recs.length }, { recs := [], nextId := s.nextId })
  else (.error .forbidden, s)

/-- The `GET /locations/{id}` handler (lines 516-529 of `api/index.py`). -/
def read_location (id : Int) (s : Store) : Except Err Location :=
  if id ≤ 0 then .error .invalidInput
  else
    match s.recs.find? (fun r => r.id == id) with
    | none => .error .notFound
    | some r => .ok r

/-- Case-fold a string to a list of characters, modelling the lower-casing
both sides of an `ILIKE` comparison undergo. -/
def lowerL (s : String) : List Char := s.data.map Char.toLower

/-- SQL `LIKE` matching of a pattern against a string (both already
case-folded): `%` matches any sequence of characters, `_` matches exactly
one character, every other pattern character matches itself.  No escape
processing, matching the patterns `api/index.py` builds by interpolation. -/
def likeM : List Char → List Char → Bool
  | [], s => s.isEmpty
  | c :: ps, s =>
    if c = '%' then s.tails.any (fun t => likeM ps t)
    else if c = '_' then
      match s with
      | [] => false
      | _ :: s2 => likeM ps s2
    else
      match s with
      | [] => false
      | b :: s2 => c == b && likeM ps s2

/-- The `column.ilike(pattern)` filter of SQLAlchemy: case-insensitive
`LIKE`. -/
def sqlILike (col pat : String) : Bool := likeM (lowerL pat) (lowerL col)

/-- The `loca` filter of `GET /locations` (line 482 of `api/index.py`). -/
def locaPred (loca : String) (r : Location) : Bool :=
  sqlILike r.loca ("%" ++ loca ++ "%")

/-- The `search` filter of `GET /locations` (lines 484-486 of
`api/index.py`): an `OR` across the `name` and `desc` columns. -/
def searchPred (search : String) (r : Location) : Bool :=
  sqlILike r.name ("%" ++ search ++ "%") || sqlILike r.desc ("%" ++ search ++ "%")

/-- The filtering stage of `GET /locations` (lines 481-486): the `loca`
filter is attached first, then the `search` filter; a parameter that is
absent or empty (falsy in Python) attaches no filter. -/
def applyFilters (search loca : Option String) (l : List Location) : List Location :=
  let l1 := match loca with
    | some t => if t = "" then l else l.filter (locaPred t)
    | none => l
  match search with
  | some t => if t = "" then l1 else l1.filter (searchPred t)
  | none => l1

/-- Ascending order on the `id` column. -/
def byIdLe (a b : Location) : Prop := a.id ≤ b.id

/-- Descending order on the `id` column. -/
def byIdGe (a b : Location) : Prop := b.id ≤ a.id

/-- Ascending order on the `name` column, modelled as lexicographic order
on the character sequences. -/
def byNameLe (a b : Location) : Prop := a.name.data ≤ b.name.data

/-- Descending order on the `name` column. -/
def byNameGe (a b : Location) : Prop := b.name.data ≤ a.name.data

instance : DecidableRel byIdLe := fun a b => inferInstanceAs (Decidable (a.id ≤ b.id))

instance : DecidableRel byIdGe := fun a b => inferInstanceAs (Decidable (b.id ≤ a.id))

instance : DecidableRel byNameLe := fun a b => inferInstanceAs (Decidable (a.name.data ≤ b.name.data))

instance : DecidableRel byNameGe := fun a b => inferInstanceAs (Decidable (b.name.data ≤ a.name.data))

instance : IsTotal Location byIdLe := ⟨fun a b => Int.le_total a.id b.id⟩

instance : IsTotal Location byIdGe := ⟨fun a b => Int.le_total b.id a.id⟩

instance : IsTotal Location byNameLe := ⟨fun a b => le_total a.name.data b.name.data⟩

instance : IsTotal Location byNameGe := ⟨fun a b => le_total b.name.data a.name.data⟩

instance : IsTrans Location byIdLe := ⟨fun _ _ _ h h2 => Int.le_trans h h2⟩

instance : IsTrans Location byIdGe := ⟨fun _ _ _ h h2 => Int.le_trans h2 h⟩

instance : IsTrans Location byNameLe := ⟨fun _ _ _ h h2 => le_trans h h2⟩

instance : IsTrans Location byNameGe := ⟨fun _ _ _ h h2 => le_trans h2 h⟩

/-- Whether the `order` query parameter selects descending order: the code
compares `order.lower()` with the literal string `desc` (line 490). -/
def orderIsDesc (order : String) : Bool := lowerL order = "desc".data

/-- The sorting stage of `GET /locations` (lines 488-490): only the
`sort_by` values `id` and `name` attach an `ORDER BY`; any other value
leaves the query unsorted, in store order. -/
def sortLocs (sort_by order : String) (l : List Location) : List Location :=
  if sort_by = "id" then
    if orderIsDesc order then l.insertionSort byIdGe else l.insertionSort byIdLe
  else if sort_by = "name" then
    if orderIsDesc order then l.insertionSort byNameGe else l.insertionSort byNameLe
  else l

/-- The declared default of the `limit` query parameter, `Query(100, ge=1, le=100)`. -/
def limitDefault : Int := 100

/-- The declared default of the `sort_by` query parameter. -/
def sortByDefault : String := "id"

/-- The declared default of the `order` query parameter. -/
def orderDefault : String := "asc"

/-- The `GET /locations` handler (lines 456-493 of `api/index.py`),
including the framework-level `ge=1, le=100` validation of `limit`: an
out-of-range value is rejected with a validation error before the handler
body runs; an in-range value truncates the sorted, filtered rows. -/
def read_locations (search loca : Option String) (sort_by order : String)
    (limit : Int) (s : Store) : Except Err (List Location) :=
  if limit < 1 ∨ 100 < limit then .error .validation
  else .ok ((sortLocs sort_by order (applyFilters search loca s.recs)).take limit.toNat)

/-- The body of a `PATCH /locations/{id}` request: for each external field,
`some v` when the key was supplied with value `v` and `none` when the key
was absent (`model_dump(exclude_unset=True)` keeps exactly the supplied
keys).  A key supplied with JSON `null` is outside this model. -/
structure LocationUpdate where
  name : Option String := none
  loca : Option String := none
  img : Option String := none
  desc : Option String := none
  facilities : Option String := none
  layout_info : Option String := none
deriving DecidableEq, Repr

/-- Whether no key at all was supplied (`if not update_data`, line 550). -/
def LocationUpdate.isEmptyUpd (u : LocationUpdate) : Bool :=
  u.name.isNone && u.loca.isNone && u.img.isNone && u.desc.isNone &&
  u.facilities.isNone && u.layout_info.isNone

/-- The `setattr` loop of the update handler (lines 553-554) applied to a
row.  The keys `name`, `loca`, `img`, `desc`, `facilities` are mapped ORM
attributes and update the row; the key `layout_info` is not an attribute of
`DBLocation` (the mapped attribute is `layout`, merely stored under the
column name `layout_info`), so `setattr(db_location, 'layout_info', v)`
creates a stray unmapped Python attribute and the persisted row keeps its
prior `layout` value. -/
def applyUpdate (u : LocationUpdate) (r : Location) : Location :=
  { r with
    name := u.name.getD r.name
    loca := u.loca.getD r.loca
    img := u.img.getD r.img
    desc := u.desc.getD r.desc
    facilities := match u.facilities with | some v => some v | none => r.facilities }

/-- Replace the first list element satisfying `p` by `x`. -/
def replaceFirst (p : α → Bool) (x : α) : List α → List α
  | [] => []
  | a :: as => if p a then x :: as else a :: replaceFirst p x as

/-- The `PATCH /locations/{id}` handler (lines 535-558 of `api/index.py`). -/
def update_location (id : Int) (u : LocationUpdate) (s : Store) :
    Except Err Location × Store :=
  if id ≤ 0 then (.error .invalidInput, s)
  else
    match s.recs.find? (fun r => r.id == id) with
    | none => (.error .notFound, s)
    | some r =>
      if u.isEmptyUpd then (.error .invalidInput, s)
      else
        let r2 := applyUpdate u r
        (.ok r2, { s with recs := replaceFirst (fun q => q.id == id) r2 s.recs })

/-- The `DELETE /locations/{id}` handler (lines 566-582 of `api/index.py`). -/
def delete_location (id : Int) (s : Store) : Except Err Unit × Store :=
  if id ≤ 0 then (.error .invalidInput, s)
  else
    match s.recs.find? (fun r => r.id == id) with
    | none => (.error .notFound, s)
    | some _ => (.ok (), { s with recs := s.recs.eraseP (fun r => r.id == id) })

/-- Modelled from the spec: plain prefix test on character lists, a
building block of the spec's notion of substring match. -/
def prefOf : List Char → List Char → Bool
  | [], _ => true
  | _ :: _, [] => false
  | a :: as, b :: bs => a == b && prefOf as bs

/-- Modelled from the spec: substring (contiguous) test on character
lists. -/
def subOf (p : List Char) : List Char → Bool
  | [] => p.isEmpty
  | c :: s2 => prefOf p (c :: s2) || subOf p s2

/-- Modelled from the spec: case-insensitive substring match, the
behaviour the spec ascribes to the `search` and `loca` filters. -/
def ciSubstring (needle hay : String) : Bool := subOf (lowerL needle) (lowerL hay)

/-- Modelled from the spec: the `search` filter as the spec describes it —
a case-insensitive substring match against `name` OR `desc`. -/
def specSearchMatch (search : String) (r : Location) : Bool :=
  ciSubstring search r.name || ciSubstring search r.desc

/-- Modelled from the spec: the `loca` filter as the spec describes it — a
case-insensitive substring match against the `loca` field. -/
def specLocaMatch (loca : String) (r : Location) : Bool := ciSubstring loca r.loca

/-- A string whose case-folded form contains neither SQL `LIKE` wildcard. -/
def NoWildStr (t : String) : Prop := '%' ∉ lowerL t ∧ '_' ∉ lowerL t

instance (t : String) : Decidable (NoWildStr t) :=
  inferInstanceAs (Decidable ('%' ∉ lowerL t ∧ '_' ∉ lowerL t))

/-- Sample row used by concrete witnesses and counterexamples. -/
def rA : Location :=
  { id := 1, name := "Alpha", loca := "World", img := "i", desc := "dust" }

/-- Second sample row. -/
def rB : Location :=
  { id := 2, name := "Beta", loca := "Sea", img := "j", desc := "mist" }

/-- A store holding the single row `rA`. -/
def storeA : Store := { recs := [rA], nextId := 2 }

/-- A store holding the rows `rA` and `rB`. -/
def storeB : Store := { recs := [rA, rB], nextId := 3 }

/-- The empty store. -/
def emptyStore : Store := { recs := [], nextId := 1 }

/-- A fixture record with all four required fields present and non-empty. -/
def fixGood : FixtureRec :=
  { name := some "B", loca := some "Y", img := some "j", desc := some "e" }

/-- A fixture record missing three required fields. -/
def fixBad : FixtureRec := { name := some "B" }

/-- Helper: a predicate-free reading of `find? = none`. -/
theorem find?_id_eq_none {l : List Location} {id : Int}
    (h : ∀ r ∈ l, r.id ≠ id) : l.find? (fun r => r.id == id) = none := by
  apply List.find?_eq_none.mpr
  intro x hx
  simpa using h x hx

/-- Helper: when the stored ids are pairwise distinct, erasing the first
row with a given id leaves no row with that id. -/
theorem find?_eraseP_nodup (l : List Location) (id : Int)
    (h : (l.map Location.id).Nodup) :
    (l.eraseP (fun r => r.id == id)).find? (fun r => r.id == id) = none := by
  induction l with
  | nil => rfl
  | cons a t ih =>
    rw [List.map_cons, List.nodup_cons] at h
    obtain ⟨ha, ht⟩ := h
    by_cases hpa : a.id = id
    · rw [List.eraseP_cons, show (a.id == id) = true by simp [hpa]]
      simp only [cond_true]
      apply find?_id_eq_none
      intro x hx hx2
      exact ha (List.mem_map.mpr ⟨x, hx, by rw [hx2, hpa]⟩)
    · rw [List.eraseP_cons, show (a.id == id) = false by simp [hpa]]
      simp only [cond_false]
      rw [List.find?_cons_of_neg _ (by simp [hpa])]
      exact ih ht

/-- C9: an invocation of the seed or reset operation with a secret
different from the configured shared secret fails with Forbidden (403) and
leaves the store unchanged. -/
theorem C9_bad_secret_forbidden (secret cfg : String) (fixture : List FixtureRec) (s : Store)
    (h : secret ≠ cfg) :
    seed_database secret cfg fixture s = (.error .forbidden, s) ∧
    reset_database secret cfg s = (.error .forbidden, s) := by
  constructor
  · simp [seed_database, h]
  · simp [reset_database, h]

theorem C9_bad_secret_forbidden_witness :
    seed_database "wrong" "default_secret" [fixGood] storeA = (.error .forbidden, storeA) ∧
    reset_database "wrong" "default_secret" storeA = (.error .forbidden, storeA) :=
  C9_bad_secret_forbidden "wrong" "default_secret" [fixGood] storeA (by decide)

/-- C1: evaluating the seed handler with the correct secret on a store
already holding one row shows the claim's behaviour does not happen: the
call succeeds (the Conflict raised at line 328 of `api/index.py` is caught
by the blanket `except Exception` at line 332), the prior row is wiped by
the drop/create of the tables, and the fixture row is inserted. -/
theorem C1_seed_conflict_swallowed :
    seed_database "s" "s" [fixGood] storeA =
      (.ok { inserted := 1, total := 1 },
       { recs := [{ id := 1, name := "B", loca := "Y", img := "j", desc := "e" }], nextId := 2 }) ∧
    storeA.recs.length = 1 ∧
    (seed_database "s" "s" [fixGood] storeA).1 ≠ .error .conflict ∧
    (seed_database "s" "s" [fixGood] storeA).2 ≠ storeA := by
  decide

/-- C2 counterexample: the single-read operation at id 0 fails with
InvalidInput (400, "ID lokasi harus berupa angka positif"), not with
NotFound as the claim states. -/
theorem C2_counterexample :
    read_location 0 storeA = .error .invalidInput ∧
    read_location 0 storeA ≠ .error .notFound := by
  decide

/-- C2 (amended): the single-read operation fails with InvalidInput if
id ≤ 0, fails with NotFound if id > 0 and no stored record has that id,
and otherwise returns exactly the (first) stored record with that id. -/
theorem C2_read_location_amended (id : Int) (s : Store) :
    (id ≤ 0 → read_location id s = .error .invalidInput) ∧
    (0 < id → s.recs.find? (fun r => r.id == id) = none →
      read_location id s = .error .notFound) ∧
    (0 < id → ∀ r, s.recs.find? (fun r => r.id == id) = some r →
      read_location id s = .ok r) := by
  refine ⟨fun h => ?_, fun h hf => ?_, fun h r hf => ?_⟩
  · simp [read_location, h]
  · simp [read_location, show ¬ id ≤ 0 by omega, hf]
  · simp [read_location, show ¬ id ≤ 0 by omega, hf]

theorem C2_read_location_amended_witness :
    read_location 0 storeB = .error .invalidInput ∧
    read_location 5 storeB = .error .notFound ∧
    read_location 1 storeB = .ok rA :=
  ⟨(C2_read_location_amended 0 storeB).1 (by decide),
   (C2_read_location_amended 5 storeB).2.1 (by decide) (by decide),
   (C2_read_location_amended 1 storeB).2.2 (by decide) rA (by decide)⟩

/-- C3: evaluating the update handler at a request supplying only
`layout_info` shows the divergence: `setattr(db_location, 'layout_info', v)`
targets an unmapped attribute (the ORM attribute is `layout`), so the call
reports success while the stored record — including its `layout` column —
is completely unchanged, instead of taking the supplied value. -/
theorem C3_layout_update_not_persisted :
    update_location 1 { layout_info := some "L" } storeA = (.ok rA, storeA) ∧
    rA.layout ≠ some "L" := by
  decide

/-- C10: during seeding, a fixture record whose mapped required field
(`name`, `loca` — fed by the `loca` or `locations` key —, `img` or `desc`)
is present with the falsy value `""` is processed exactly like a record
missing that field: per-record processing fails, so the record is skipped
and not inserted. -/
theorem C10_falsy_required_skipped (rec : FixtureRec) :
    ((rec.name = some "" ∨ rec.name = none) → processRecord rec = none) ∧
    (((rec.loca <|> rec.locations) = some "" ∨ (rec.loca <|> rec.locations) = none) →
      processRecord rec = none) ∧
    ((rec.img = some "" ∨ rec.img = none) → processRecord rec = none) ∧
    ((rec.desc = some "" ∨ rec.desc = none) → processRecord rec = none) := by
  have key : ∀ (v : Option String), (v = some "" ∨ v = none) → checkReq v = none := by
    rintro v (rfl | rfl) <;> simp [checkReq]
  refine ⟨fun h => ?_, fun h => ?_, fun h => ?_, fun h => ?_⟩
  · simp [processRecord, key _ h]
  · cases h1 : checkReq rec.name <;> simp [processRecord, h1, key _ h]
  · cases h1 : checkReq rec.name <;> cases h2 : checkReq (rec.loca <|> rec.locations) <;>
      simp [processRecord, h1, h2, key _ h]
  · cases h1 : checkReq rec.name <;> cases h2 : checkReq (rec.loca <|> rec.locations) <;>
      cases h3 : checkReq rec.img <;> simp [processRecord, h1, h2, h3, key _ h]

theorem C10_falsy_required_skipped_witness :
    processRecord { name := some "", loca := some "X", img := some "i", desc := some "d" } = none ∧
    processRecord { loca := some "X", img := some "i", desc := some "d" } = none :=
  ⟨(C10_falsy_required_skipped _).1 (Or.inl rfl),
   (C10_falsy_required_skipped _).1 (Or.inr rfl)⟩

/-- C8 counterexample: two concrete seeding runs refute the claim as
stated.  First, on a store holding one row, a run whose only fixture record
is invalid ends in the data-format error but the store is NOT left
unchanged — the swallowed Conflict path has already dropped and recreated
the table, so the prior row is gone.  Second, a run over the empty fixture
list (zero records succeed) fails with the file-missing error, not with
the data-format error. -/
theorem C8_counterexample :
    (seed_database "s" "s" [fixBad] storeA = (.error .dataFormat, { recs := [], nextId := 1 }) ∧
      ({ recs := [], nextId := 1 } : Store) ≠ storeA) ∧
    (seed_database "s" "s" [] emptyStore = (.error .fixtureMissing, emptyStore) ∧
      Err.fixtureMissing ≠ Err.dataFormat) := by
  decide

/-- C8 (amended): for a seeding run with the correct secret over a
NON-EMPTY fixture list starting from an EMPTY store, invalid records are
skipped without aborting the batch; if zero records succeed the operation
fails with the data-format error and the store is unchanged (rollback),
otherwise it commits once and returns the count of inserted records
together with the total attempted, the store now holding exactly the
successfully processed records. -/
theorem C8_seed_batch_amended (cfg : String) (fixture : List FixtureRec) (s : Store)
    (hempty : s.recs = []) (hfix : fixture ≠ []) :
    (fixture.filterMap processRecord = [] →
      seed_database cfg cfg fixture s = (.error .dataFormat, s)) ∧
    (fixture.filterMap processRecord ≠ [] →
      seed_database cfg cfg fixture s =
        (.ok { inserted := (fixture.filterMap processRecord).length, total := fixture.length },
         { recs := assignIds s.nextId (fixture.filterMap processRecord),
           nextId := s.nextId + (fixture.filterMap processRecord).length })) := by
  have h2 : fixture.isEmpty = false := by
    cases fixture with
    | nil => exact absurd rfl hfix
    | cons a t => rfl
  constructor
  · intro hout
    simp [seed_database, hempty, h2, hout]
  · intro hout
    have h3 : (fixture.filterMap processRecord).isEmpty = false := by
      cases hfm : fixture.filterMap processRecord with
      | nil => exact absurd hfm hout
      | cons a t => rfl
    simp [seed_database, hempty, h2, h3]

theorem C8_seed_batch_amended_witness :
    seed_database "s" "s" [fixBad, fixGood] emptyStore =
      (.ok { inserted := 1, total := 2 },
       { recs := [{ id := 1, name := "B", loca := "Y", img := "j", desc := "e" }],
         nextId := 2 }) := by
  have h := (C8_seed_batch_amended "s" [fixBad, fixGood] emptyStore rfl (by decide)).2 (by decide)
  rw [h]
  decide

/-- C7: on a store whose ids are pairwise distinct (the primary-key
invariant), a successful delete of an id removes the record — the store
shrinks by one row — and a subsequent single read of the same id fails
with NotFound. -/
theorem C7_delete_then_read (id : Int) (s : Store)
    (hnd : (s.recs.map Location.id).Nodup)
    (hok : (delete_location id s).1 = .ok ()) :
    read_location id (delete_location id s).2 = .error .notFound ∧
    (delete_location id s).2.recs.length + 1 = s.recs.length := by
  unfold delete_location at hok ⊢
  by_cases h0 : id ≤ 0
  · simp [h0] at hok
  · simp only [if_neg h0] at hok ⊢
    cases hf : s.recs.find? (fun r => r.id == id) with
    | none => rw [hf] at hok; simp at hok
    | some r =>
      dsimp only
      constructor
      · simp [read_location, h0, find?_eraseP_nodup s.recs id hnd]
      · have hmem := List.mem_of_find?_eq_some hf
        have hpr := List.find?_some hf
        have hlen := List.length_eraseP_of_mem (p := fun q => q.id == id) hmem hpr
        have hpos : 0 < s.recs.length := List.length_pos.mpr (List.ne_nil_of_mem hmem)
        simp only [hlen]
        omega

theorem C7_delete_then_read_witness :
    read_location 1 (delete_location 1 storeB).2 = .error .notFound ∧
    (delete_location 1 storeB).2.recs.length + 1 = storeB.recs.length :=
  C7_delete_then_read 1 storeB (by decide) (by decide)

/-- C4: the `limit` parameter of the list query defaults to 100 and is
bounded to [1, 100]: any out-of-range value (0, 101, ...) is rejected with
a validation error rather than clamped, and an in-range value bounds the
number of returned records by `limit`. -/
theorem C4_limit_bounds (search loca : Option String) (sort_by order : String)
    (limit : Int) (s : Store) :
    (limit < 1 ∨ 100 < limit →
      read_locations search loca sort_by order limit s = .error .validation) ∧
    (1 ≤ limit → limit ≤ 100 →
      ∃ res, read_locations search loca sort_by order limit s = .ok res ∧
        (res.length : Int) ≤ limit) ∧
    limitDefault = 100 := by
  refine ⟨fun h => ?_, fun h1 h2 => ?_, rfl⟩
  · simp [read_locations, h]
  · have hn : ¬ (limit < 1 ∨ 100 < limit) := by omega
    refine ⟨(sortLocs sort_by order (applyFilters search loca s.recs)).take limit.toNat,
      by simp [read_locations, hn], ?_⟩
    have hlen := List.length_take_le limit.toNat (sortLocs sort_by order (applyFilters search loca s.recs))
    have hcast : (((sortLocs sort_by order (applyFilters search loca s.recs)).take limit.toNat).length : Int) ≤ (limit.toNat : Int) :=
      Int.ofNat_le.mpr hlen
    rwa [Int.toNat_of_nonneg (by omega)] at hcast

theorem C4_limit_bounds_witness :
    read_locations none none "id" "asc" 0 storeA = .error .validation ∧
    read_locations none none "id" "asc" 101 storeA = .error .validation ∧
    (∃ res, read_locations none none "id" "asc" 100 storeA = .ok res ∧
      (res.length : Int) ≤ 100) ∧
    limitDefault = 100 :=
  ⟨(C4_limit_bounds none none "id" "asc" 0 storeA).1 (Or.inl (by decide)),
   (C4_limit_bounds none none "id" "asc" 101 storeA).1 (Or.inr (by decide)),
   (C4_limit_bounds none none "id" "asc" 100 storeA).2.1 (by decide) (by decide),
   (C4_limit_bounds none none "id" "asc" 100 storeA).2.2⟩

theorem likeM_pct_any : ∀ s : List Char, likeM ['%'] s = true
  | [] => rfl
  | c :: s2 => by
    have h1 : likeM ['%'] (c :: s2) = ((c :: s2).tails.any fun t => likeM [] t) := rfl
    have h2 : likeM ['%'] s2 = (s2.tails.any fun t => likeM [] t) := rfl
    rw [h1, List.tails_cons, List.any_cons, ← h2, likeM_pct_any s2]
    simp [likeM]

theorem prefOf_nil_right (p : List Char) : prefOf p [] = p.isEmpty := by
  cases p <;> rfl

theorem likeM_app_pct : ∀ (p : List Char), '%' ∉ p → '_' ∉ p →
    ∀ s, likeM (p ++ ['%']) s = prefOf p s
  | [], _, _, s => by
    rw [List.nil_append, likeM_pct_any s]
    rfl
  | a :: p', hp1, hp2, s => by
    have ha1 : ¬ a = '%' := fun h => hp1 (h ▸ List.mem_cons_self a p')
    have ha2 : ¬ a = '_' := fun h => hp2 (h ▸ List.mem_cons_self a p')
    have hp1' : '%' ∉ p' := fun h => hp1 (List.mem_cons_of_mem a h)
    have hp2' : '_' ∉ p' := fun h => hp2 (List.mem_cons_of_mem a h)
    cases s with
    | nil => simp [likeM, prefOf, ha1, ha2]
    | cons b s2 =>
      simp [likeM, prefOf, ha1, ha2, likeM_app_pct p' hp1' hp2' s2]

theorem tails_any_prefOf (p : List Char) : ∀ s, (s.tails.any fun t => prefOf p t) = subOf p s
  | [] => by cases p <;> rfl
  | c :: s2 => by
    rw [List.tails_cons, List.any_cons, tails_any_prefOf p s2]
    rfl

theorem likeM_wrap {p : List Char} (hp1 : '%' ∉ p) (hp2 : '_' ∉ p) (s : List Char) :
    likeM ('%' :: (p ++ ['%'])) s = subOf p s := by
  have h1 : likeM ('%' :: (p ++ ['%'])) s = (s.tails.any fun t => likeM (p ++ ['%']) t) := rfl
  rw [h1]
  have h2 : ∀ t, likeM (p ++ ['%']) t = prefOf p t := likeM_app_pct p hp1 hp2
  simp only [h2]
  exact tails_any_prefOf p s

theorem lowerL_wrap (t : String) : lowerL ("%" ++ t ++ "%") = '%' :: (lowerL t ++ ['%']) := by
  unfold lowerL
  rw [show ("%" ++ t ++ "%").data = '%' :: (t.data ++ ['%']) from rfl]
  simp [show Char.toLower '%' = '%' from by decide]

theorem locaPred_eq_spec {t : String} (hw : NoWildStr t) (r : Location) :
    locaPred t r = specLocaMatch t r := by
  unfold locaPred sqlILike specLocaMatch ciSubstring
  rw [lowerL_wrap]
  exact likeM_wrap hw.1 hw.2 (lowerL r.loca)

theorem searchPred_eq_spec {t : String} (hw : NoWildStr t) (r : Location) :
    searchPred t r = specSearchMatch t r := by
  unfold searchPred specSearchMatch sqlILike ciSubstring
  rw [lowerL_wrap, likeM_wrap hw.1 hw.2, likeM_wrap hw.1 hw.2]

theorem sortLocs_perm (sort_by order : String) (l : List Location) :
    (sortLocs sort_by order l).Perm l := by
  unfold sortLocs
  split_ifs <;> first | exact List.perm_insertionSort _ _ | exact List.Perm.refl _

theorem applyFilters_both {search loca : String} (hs : search ≠ "") (hl : loca ≠ "")
    (l : List Location) :
    applyFilters (some search) (some loca) l
      = (l.filter (locaPred loca)).filter (searchPred search) := by
  simp [applyFilters, hs, hl]

theorem C5_counterexample :
    read_locations (some "alpha") (some "%") "id" "asc" 100 storeA = .ok [rA] ∧
    specLocaMatch "%" rA = false := by
  decide

theorem C5_filters_amended (search loca sort_by order : String)
    (limit : Int) (s : Store)
    (hs : search ≠ "") (hl : loca ≠ "")
    (hw1 : NoWildStr search) (hw2 : NoWildStr loca)
    (h1 : 1 ≤ limit) (h2 : limit ≤ 100)
    (hfit : (s.recs.length : Int) ≤ limit) :
    ∃ res, read_locations (some search) (some loca) sort_by order limit s = .ok res ∧
      ∀ r, r ∈ res ↔ r ∈ s.recs ∧ specSearchMatch search r = true ∧ specLocaMatch loca r = true := by
  have hn : ¬ (limit < 1 ∨ 100 < limit) := by omega
  have hflr : applyFilters (some search) (some loca) s.recs
      = (s.recs.filter (locaPred loca)).filter (searchPred search) := applyFilters_both hs hl s.recs
  have hperm : (sortLocs sort_by order (applyFilters (some search) (some loca) s.recs)).Perm
      (applyFilters (some search) (some loca) s.recs) := sortLocs_perm _ _ _
  have hfl_len : (applyFilters (some search) (some loca) s.recs).length ≤ s.recs.length := by
    rw [hflr]
    exact le_trans (List.length_filter_le _ _) (List.length_filter_le _ _)
  have hlen : (sortLocs sort_by order (applyFilters (some search) (some loca) s.recs)).length
      ≤ limit.toNat := by
    rw [hperm.length_eq]
    omega
  have htake : (sortLocs sort_by order (applyFilters (some search) (some loca) s.recs)).take limit.toNat
      = sortLocs sort_by order (applyFilters (some search) (some loca) s.recs) :=
    List.take_of_length_le hlen
  refine ⟨(sortLocs sort_by order (applyFilters (some search) (some loca) s.recs)).take limit.toNat,
    by simp [read_locations, hn], ?_⟩
  intro r
  rw [htake, hperm.mem_iff, hflr]
  simp only [List.mem_filter]
  constructor
  · rintro ⟨⟨hm, hloca⟩, hsearch⟩
    exact ⟨hm, by rw [← searchPred_eq_spec hw1]; exact hsearch,
      by rw [← locaPred_eq_spec hw2]; exact hloca⟩
  · rintro ⟨hm, hsearch, hloca⟩
    exact ⟨⟨hm, by rw [locaPred_eq_spec hw2]; exact hloca⟩,
      by rw [searchPred_eq_spec hw1]; exact hsearch⟩

theorem C5_filters_amended_witness :
    ∃ res, read_locations (some "al") (some "or") "id" "asc" 100 storeA = .ok res ∧
      ∀ r, r ∈ res ↔ r ∈ storeA.recs ∧
        specSearchMatch "al" r = true ∧ specLocaMatch "or" r = true :=
  C5_filters_amended "al" "or" "id" "asc" 100 storeA (by decide) (by decide)
    (by decide) (by decide) (by decide) (by decide) (by decide)

theorem C6_sorting (search loca : Option String) (sort_by order : String)
    (limit : Int) (s : Store) (res : List Location)
    (hok : read_locations search loca sort_by order limit s = .ok res) :
    (sort_by = "id" → orderIsDesc order = false → res.Pairwise byIdLe) ∧
    (sort_by = "id" → orderIsDesc order = true → res.Pairwise byIdGe) ∧
    (sort_by = "name" → orderIsDesc order = false → res.Pairwise byNameLe) ∧
    (sort_by = "name" → orderIsDesc order = true → res.Pairwise byNameGe) ∧
    (sort_by ≠ "id" → sort_by ≠ "name" →
      res = (applyFilters search loca s.recs).take limit.toNat) := by
  unfold read_locations at hok
  by_cases hv : limit < 1 ∨ 100 < limit
  · simp [hv] at hok
  · rw [if_neg hv] at hok
    injection hok with hok
    subst hok
    refine ⟨fun hsb hod => ?_, fun hsb hod => ?_, fun hsb hod => ?_, fun hsb hod => ?_,
      fun hsb1 hsb2 => ?_⟩
  
    · rw [show sortLocs sort_by order (applyFilters search loca s.recs)
          = (applyFilters search loca s.recs).insertionSort byIdLe by simp [sortLocs, hsb, hod]]
      exact List.Pairwise.sublist (List.take_sublist _ _) (List.sorted_insertionSort byIdLe _)
    · rw [show sortLocs sort_by order (applyFilters search loca s.recs)
          = (applyFilters search loca s.recs).insertionSort byIdGe by simp [sortLocs, hsb, hod]]
      exact List.Pairwise.sublist (List.take_sublist _ _) (List.sorted_insertionSort byIdGe _)
    · rw [show sortLocs sort_by order (applyFilters search loca s.recs)
          = (applyFilters search loca s.recs).insertionSort byNameLe by simp [sortLocs, hsb, hod]]
      exact List.Pairwise.sublist (List.take_sublist _ _) (List.sorted_insertionSort byNameLe _)
    · rw [show sortLocs sort_by order (applyFilters search loca s.recs)
          = (applyFilters search loca s.recs).insertionSort byNameGe by simp [sortLocs, hsb, hod]]
      exact List.Pairwise.sublist (List.take_sublist _ _) (List.sorted_insertionSort byNameGe _)
    · simp [sortLocs, hsb1, hsb2]

theorem C6_sorting_witness :
    ([rB, rA] : List Location).Pairwise byNameGe ∧
    read_locations none none "name" "DESC" 100 storeB = .ok [rB, rA] := by
  have hok : read_locations none none "name" "DESC" 100 storeB = .ok [rB, rA] := by decide
  exact ⟨(C6_sorting none none "name" "DESC" 100 storeB [rB, rA] hok).2.2.2.1 rfl (by decide), hok⟩
